import Mathlib

/-!
Verification development for the VocalCoach transcript-analysis and
progress engine.

The TypeScript source is shallowly embedded as follows:
* JavaScript numbers are modelled as exact rationals (`ℚ`); every constant
  appearing in the source is an exactly representable decimal, so the
  rational model coincides with the float semantics on all values the
  claims talk about.
* `Math.round` is modelled by `jsRound` (round half toward +∞), which is
  exactly JavaScript's rounding rule on finite numbers.
* strings are modelled as `List Char`; `String.prototype.split(/\s+/)` is
  modelled by `splitWS`, which merges whitespace runs and produces the
  same leading/trailing empty tokens as the JavaScript regexp split.
* fallible code is modelled with `Except`/`Option`.
-/

/-- JavaScript `Math.round`: round half toward positive infinity. -/
def jsRound (q : ℚ) : ℤ := ⌊q + 1/2⌋

/-- Whitespace test for the ``/\s+/` regexp; the source texts only contain
the four ASCII whitespace characters. -/
def isWs (c : Char) : Bool := c == ' ' || c == '\t' || c == '\n' || c == '\r'

/-- Worker for `splitWS`: state `none` means "inside a whitespace run",
state `some acc` means "inside a token with reversed prefix `acc`". -/
def splitAux : List Char → Option (List Char) → List (List Char)
  | [], none => [[]]
  | [], some acc => [acc.reverse]
  | c :: rest, none =>
      if isWs c then splitAux rest none else splitAux rest (some [c])
  | c :: rest, some acc =>
      if isWs c then acc.reverse :: splitAux rest none
      else splitAux rest (some (c :: acc))

/-- JavaScript `text.split(/\s+/)`: split on maximal whitespace runs;
leading/trailing runs contribute empty tokens, and `"".split` is `[""]`. -/
def splitWS (l : List Char) : List (List Char) := splitAux l (some [])

/-- JavaScript `String.prototype.trim()` on a character list. -/
def trimChars (l : List Char) : List Char :=
  ((l.dropWhile isWs).reverse.dropWhile isWs).reverse

/-- ASCII fragment of JavaScript `String.prototype.toLowerCase()`; the
filler vocabulary and the claims' inputs are ASCII. -/
def toLowerChar (c : Char) : Char :=
  if 65 ≤ c.toNat ∧ c.toNat ≤ 90 then Char.ofNat (c.toNat + 32) else c

/-- JavaScript `text.toLowerCase()` on a character list. -/
def lowerChars (l : List Char) : List Char := l.map toLowerChar

/-- Does `hay` start with `needle`? -/
def listStartsWith : List Char → List Char → Bool
  | [], _ => true
  | _ :: _, [] => false
  | a :: as, b :: bs => a == b && listStartsWith as bs

/-- JavaScript `hay.includes(needle)` (substring containment). -/
def containsSub (needle : List Char) : List Char → Bool
  | [] => listStartsWith needle []
  | c :: rest => listStartsWith needle (c :: rest) || containsSub needle rest

/-- JavaScript `s.replace(' ', '')` with a string pattern: removes only the
first space. -/
def replaceFirstSpace : List Char → List Char
  | [] => []
  | c :: rest => if c == ' ' then rest else c :: replaceFirstSpace rest

/-- `countWords` from `server/mistral.ts`:
`text.trim().split(/\s+/).filter(word => word.length > 0).length`. -/
def countWords (text : List Char) : ℕ :=
  ((splitWS (trimChars text)).filter (fun w => decide (0 < w.length))).length

/-- Filler vocabulary of `countFillers`. -/
def fillerWords : List (List Char) :=
  ["um", "uh", "like", "you know", "so", "basically", "actually",
   "literally"].map String.toList

/-- `countFillers` from `server/mistral.ts`: lower-case, split on
whitespace, count tokens that contain (as a substring) some filler word
with its first space removed. -/
def countFillers (text : List Char) : ℕ :=
  ((splitWS (lowerChars text)).filter (fun word =>
    fillerWords.any (fun filler =>
      containsSub (replaceFirstSpace filler) word))).length

/-- `calculateWPM` from `server/mistral.ts`:
`Math.round((wordCount / durationSeconds) * 60)` with no guard on the
duration.  The rational model is meaningful for `durationSeconds ≠ 0`; at
`durationSeconds = 0` the JavaScript source produces a non-finite number
(`Infinity` or `NaN`), which has no rational counterpart, so theorems
about this definition only quantify over nonzero durations. -/
def calculateWPM (text : List Char) (durationSeconds : ℚ) : ℤ :=
  jsRound ((countWords text : ℚ) / durationSeconds * 60)

/-- `calculateWPM` from `client/src/lib/audio-analysis.ts`: takes the word
count directly and guards exactly `durationSeconds === 0`. -/
def clientCalculateWPM (wordCount durationSeconds : ℚ) : ℤ :=
  if durationSeconds = 0 then 0
  else jsRound (wordCount / durationSeconds * 60)

/-- `calculateClarityScore` from `server/mistral.ts`. -/
def calculateClarityScore (text : List Char) : ℚ :=
  let wordCount := countWords text
  let fillerCount := countFillers text
  let fillerRatio : ℚ := if 0 < wordCount then (fillerCount : ℚ) / wordCount else 0
  max 0.3 (min 1.0 (1 - fillerRatio * 2))

/-- `getPaceScore` from `server/mistral.ts`: banded pace score with
first-match-wins precedence. -/
def getPaceScore (wpm : ℤ) : ℚ :=
  if 110 ≤ wpm ∧ wpm ≤ 140 then 100
  else if 90 ≤ wpm ∧ wpm ≤ 160 then 80
  else if 70 ≤ wpm ∧ wpm ≤ 180 then 60
  else 40

/-- `calculateOverallScore` from `server/mistral.ts`: the sequential
scoring pipeline. -/
def calculateOverallScore (text : List Char) (durationSeconds : ℚ) : ℤ :=
  let wpm := calculateWPM text durationSeconds
  let fillerCount := countFillers text
  let wordCount := countWords text
  let clarityScore := calculateClarityScore text
  let score0 : ℚ := 100
  let fillerPenalty := min 30 ((fillerCount : ℚ) / (wordCount : ℚ) * 100 * 0.3)
  let score1 := score0 - fillerPenalty
  let paceScore := getPaceScore wpm
  let score2 := score1 * 0.8 + paceScore * 0.2
  let score3 := score2 * 0.8 + clarityScore * 100 * 0.2
  let score4 := if 120 ≤ durationSeconds then score3 + 5 else score3
  let score5 := if durationSeconds < 30 then score4 - 10 else score4
  max 0 (min 100 (jsRound score5))

/-- Filler vocabulary of `getFillerBreakdown` (the reporting subset). -/
def breakdownFillerWords : List (List Char) :=
  ["um", "uh", "like", "you know", "so"].map String.toList

/-- `getFillerBreakdown` from `server/mistral.ts`: per-filler counts over
the reporting vocabulary, with the same substring matching rule. -/
def getFillerBreakdown (text : List Char) : List (List Char × ℕ) :=
  let words := splitWS (lowerChars text)
  breakdownFillerWords.map (fun filler =>
    (filler,
     (words.filter (fun word =>
       containsSub (replaceFirstSpace filler) word)).length))

/-- Token of a transcript segment. -/
structure Token where
  t : List Char
  type : String
  start_ms : ℚ
  end_ms : ℚ
deriving DecidableEq

/-- Filler vocabulary of `tokenizeTranscript` (note: `you` and `know`
separately, and no `actually`/`literally`). -/
def tokenizeFillerWords : List (List Char) :=
  ["um", "uh", "like", "you", "know", "so", "basically"].map String.toList

/-- `tokenizeTranscript` from `server/mistral.ts`: naive 500 ms slots,
exact-match (list membership) filler classification on the lower-cased
token. -/
def tokenizeTranscript (text : List Char) : List Token :=
  (splitWS text).enum.map (fun p =>
    { t := p.2
      type := if tokenizeFillerWords.contains (lowerChars p.2) then "filler" else "word"
      start_ms := (p.1 : ℚ) * 500
      end_ms := ((p.1 : ℚ) + 1) * 500 })

/-- Transcript segment. -/
structure Segment where
  start_ms : ℚ
  end_ms : ℚ
  text : List Char
  tokens : List Token
deriving DecidableEq

/-- Highlight span. -/
structure Highlight where
  type : String
  start_ms : ℚ
  end_ms : ℚ
  text : List Char
deriving DecidableEq

/-- Filler vocabulary of `generateHighlights`. -/
def highlightFillerWords : List (List Char) :=
  ["um", "uh", "like"].map String.toList

/-- `generateHighlights` from `server/mistral.ts`: one `filler` highlight
per exactly matching token, at the naive 500 ms slots. -/
def generateHighlights (text : List Char) : List Highlight :=
  ((splitWS text).enum.filter (fun p =>
    highlightFillerWords.contains (lowerChars p.2))).map (fun p =>
    { type := "filler"
      start_ms := (p.1 : ℚ) * 500
      end_ms := ((p.1 : ℚ) + 1) * 500
      text := p.2 })

/-- Recommendation entry. -/
structure Recommendation where
  id : String
  text : String
  description : String
deriving DecidableEq

/-- `generateRecommendations` from `server/mistral.ts`. -/
def generateRecommendations (text : List Char) (durationSeconds : ℚ) :
    List Recommendation :=
  let wpm := calculateWPM text durationSeconds
  let fillerCount := countFillers text
  (if 3 < fillerCount then
    [{ id := "rec-breathe"
       text := "Practice deep breathing before speaking"
       description := "Try the 4-6-4 breathing technique to reduce filler words" }]
   else []) ++
  (if wpm < 110 then
    [{ id := "rec-pace"
       text := "Increase your speaking pace slightly"
       description := "Aim for 110-140 words per minute for better engagement" }]
   else if 140 < wpm then
    [{ id := "rec-slow"
       text := "Slow down your speaking pace"
       description := "Speaking too fast can reduce clarity and comprehension" }]
   else []) ++
  (if durationSeconds < 60 then
    [{ id := "rec-length"
       text := "Try longer practice sessions"
       description := "Aim for 2-3 minute sessions to build speaking endurance" }]
   else [])

/-- Metrics record of an `Analysis`. -/
structure Metrics where
  total_words : ℚ
  words_per_minute : ℚ
  total_fillers : ℚ
  fillers_per_minute : ℚ
  avg_pause_ms : ℚ
  energy_mean : ℚ
  pitch_median_hz : ℚ
  clarity_score : ℚ
  confidence : ℚ
  paceScore : ℚ
  fillerImprovement : ℚ
deriving DecidableEq

/-- Aggregate analysis result of `analyzeAudio`. -/
structure Analysis where
  transcript : List Segment
  metrics : Metrics
  fillerBreakdown : List (List Char × ℕ)
  highlights : List Highlight
  recommendations : List Recommendation
  score : ℚ
deriving DecidableEq

/-- Numeric fields of the parsed AI payload's `metrics` object; `none`
models an absent (`undefined`) field. -/
structure AIMetricsPayload where
  total_words : Option ℚ := none
  words_per_minute : Option ℚ := none
  total_fillers : Option ℚ := none
  fillers_per_minute : Option ℚ := none
  avg_pause_ms : Option ℚ := none
  energy_mean : Option ℚ := none
  pitch_median_hz : Option ℚ := none
  clarity_score : Option ℚ := none
  confidence : Option ℚ := none
  paceScore : Option ℚ := none
  fillerImprovement : Option ℚ := none
deriving DecidableEq

/-- Parsed AI payload (`JSON.parse` result) as used by the merge in
`analyzeAudio`; `none` models an absent or `null` field. -/
structure AIPayload where
  transcript : Option (List Segment) := none
  metrics : Option AIMetricsPayload := none
  fillerBreakdown : Option (List (List Char × ℕ)) := none
  highlights : Option (List Highlight) := none
  recommendations : Option (List Recommendation) := none
  score : Option ℚ := none
deriving DecidableEq

/-- JavaScript `x || fallback` on a possibly-absent number: `undefined`,
`null` and `0` are falsy and select the fallback. -/
def jsOrNum (x : Option ℚ) (fallback : ℚ) : ℚ :=
  match x with
  | none => fallback
  | some v => if v = 0 then fallback else v

/-- JavaScript `x || fallback` on a possibly-absent object or array: any
present object (even an empty array) is truthy. -/
def jsOrObj {α : Type} (x : Option α) (fallback : α) : α := x.getD fallback

/-- Success path of `analyzeAudio` in `server/mistral.ts` (lines 83-109):
field-by-field `||` merge of the parsed AI payload with the deterministic
fallback computations. -/
def analyzeAudioSuccess (p : AIPayload) (transcript : List Char)
    (durationSeconds : ℚ) : Analysis :=
  let m := p.metrics.getD {}
  { transcript := jsOrObj p.transcript
      [{ start_ms := 0
         end_ms := durationSeconds * 1000
         text := transcript
         tokens := tokenizeTranscript transcript }]
    metrics :=
      { total_words := jsOrNum m.total_words (countWords transcript)
        words_per_minute := jsOrNum m.words_per_minute
          (calculateWPM transcript durationSeconds)
        total_fillers := jsOrNum m.total_fillers (countFillers transcript)
        fillers_per_minute := jsOrNum m.fillers_per_minute
          ((countFillers transcript : ℚ) / (durationSeconds / 60))
        avg_pause_ms := jsOrNum m.avg_pause_ms 400
        energy_mean := jsOrNum m.energy_mean (-18)
        pitch_median_hz := jsOrNum m.pitch_median_hz 180
        clarity_score := jsOrNum m.clarity_score (calculateClarityScore transcript)
        confidence := jsOrNum m.confidence 0.85
        paceScore := jsOrNum m.paceScore
          (getPaceScore (calculateWPM transcript durationSeconds))
        fillerImprovement := jsOrNum m.fillerImprovement
          (max 0 (100 - (countFillers transcript : ℚ) * 10)) }
    fillerBreakdown := jsOrObj p.fillerBreakdown (getFillerBreakdown transcript)
    highlights := jsOrObj p.highlights (generateHighlights transcript)
    recommendations := jsOrObj p.recommendations
      (generateRecommendations transcript durationSeconds)
    score := jsOrNum p.score (calculateOverallScore transcript durationSeconds) }

/-!
In-memory storage model (`MemStorage` in `server/storage.ts`).

Timestamps (`Date`) are modelled as integer milliseconds since the epoch;
`toDateString()` equality is modelled as equality of calendar-day indices
(`dayOf`).  The JavaScript `Map`s are modelled as association lists;
JavaScript's stable `Array.prototype.sort` with a numeric comparator is
modelled by the stable insertion sort `sortDescBy`.  A session's `metrics`
JSON blob is modelled by the two fields the progress tracker reads. -/

/-- Calendar-day index of a millisecond timestamp (model of
`Date.prototype.toDateString` equality classes). -/
def dayOf (ms : ℤ) : ℤ := ms / 86400000

/-- Slice of the session `metrics` JSON read by the progress tracker. -/
structure SessionMetrics where
  fillerImprovement : ℚ
  paceScore : ℚ
deriving DecidableEq

/-- Persisted session record (the fields the progress and achievement
engines read). -/
structure Session where
  userId : String
  durationMs : ℤ
  metrics : Option SessionMetrics
  score : ℤ
  practiceMode : String
  createdAt : ℤ
deriving DecidableEq

/-- `userProgress` record (zeroed at user creation). -/
structure UserProgress where
  userId : String
  totalSessions : ℕ
  currentStreak : ℕ
  bestScore : ℤ
  avgFillerReduction : ℚ
  avgPaceControl : ℚ
  weeklyGoal : ℕ
  weeklyCompleted : ℕ
  lastSessionAt : Option ℤ
  updatedAt : ℤ
deriving DecidableEq

/-- Achievement record. -/
structure Achievement where
  userId : String
  type : String
  title : String
  description : String
  icon : String
  unlockedAt : ℤ
deriving DecidableEq

/-- The partial progress update passed to `updateUserProgress` by
`updateUserProgressAfterSession`. -/
structure ProgressUpdate where
  totalSessions : ℕ
  currentStreak : ℕ
  bestScore : ℤ
  avgFillerReduction : ℚ
  avgPaceControl : ℚ
  lastSessionAt : Option ℤ
deriving DecidableEq

/-- State of a `MemStorage` instance (sessions in insertion order). -/
structure MemState where
  sessions : List Session
  progressMap : List (String × UserProgress)
  achievementsMap : List (String × List Achievement)
deriving DecidableEq

/-- Association-list lookup (model of `Map.prototype.get`). -/
def lookupList {α : Type} (m : List (String × α)) (k : String) : Option α :=
  (m.find? (fun p => p.1 == k)).map (fun p => p.2)

/-- Association-list update (model of `Map.prototype.set`). -/
def setEntry {α : Type} : List (String × α) → String → α → List (String × α)
  | [], k, v => [(k, v)]
  | (k', v') :: rest, k, v =>
      if k' == k then (k, v) :: rest else (k', v') :: setEntry rest k v

/-- Insert `x` into a descending-by-key list, after any equal keys
(preserves the stability of JavaScript's sort). -/
def insertDescBy {α : Type} (key : α → ℤ) (x : α) : List α → List α
  | [] => [x]
  | y :: rest =>
      if key y < key x then x :: y :: rest else y :: insertDescBy key x rest

/-- Stable sort, descending by `key` (model of
`arr.sort((a, b) => key(b) - key(a))`). -/
def sortDescBy {α : Type} (key : α → ℤ) (l : List α) : List α :=
  l.foldl (fun acc x => insertDescBy key x acc) []

/-- `MemStorage.getUserProgress`. -/
def getUserProgress (st : MemState) (userId : String) : Option UserProgress :=
  lookupList st.progressMap userId

/-- `MemStorage.getUserSessions`: the user's sessions, newest first,
limited. -/
def getUserSessions (st : MemState) (userId : String) (limit : ℕ) :
    List Session :=
  (sortDescBy (fun s => s.createdAt)
    (st.sessions.filter (fun s => s.userId == userId))).take limit

/-- `MemStorage.getUserAchievements` (the stored list is kept
newest-first by `createAchievement`). -/
def getUserAchievements (st : MemState) (userId : String) : List Achievement :=
  (lookupList st.achievementsMap userId).getD []

/-- `MemStorage.createAchievement`: append the new achievement and re-sort
the user's list descending by `unlockedAt` (push + stable sort, realised
as a stable ordered insertion). -/
def createAchievement (st : MemState) (a : Achievement) : MemState :=
  let userAchievements := (lookupList st.achievementsMap a.userId).getD []
  { st with achievementsMap :=
      (setEntry st.achievementsMap a.userId
        (sortDescBy (fun x => x.unlockedAt) (userAchievements ++ [a]))) }

/-- `MemStorage.updateUserProgress`: throws (`Except.error`) when the user
has no progress record, otherwise overwrites the updated fields and
`updatedAt`. -/
def updateUserProgress (st : MemState) (userId : String) (u : ProgressUpdate)
    (now : ℤ) : Except String MemState :=
  match lookupList st.progressMap userId with
  | none => .error ("User progress not found for user " ++ userId)
  | some currentProgress =>
      .ok { st with progressMap :=
        (setEntry st.progressMap userId
          { currentProgress with
            totalSessions := u.totalSessions
            currentStreak := u.currentStreak
            bestScore := u.bestScore
            avgFillerReduction := u.avgFillerReduction
            avgPaceControl := u.avgPaceControl
            lastSessionAt := u.lastSessionAt
            updatedAt := now }) }

/-- Streak computation of `MemStorage.updateUserProgressAfterSession`
(storage.ts lines 343-350): ordered decision list over `hasSessionToday`,
`hasSessionYesterday` and the presence of `lastSessionAt`. -/
def computeNewStreak (currentStreak : ℕ) (lastSessionAt : Option ℤ)
    (hasSessionToday hasSessionYesterday : Bool) : ℕ :=
  if hasSessionToday && lastSessionAt.isNone then 1
  else if hasSessionToday && hasSessionYesterday then currentStreak + 1
  else if !hasSessionYesterday then 1
  else currentStreak

/-- `MemStorage.checkAchievements`: the unlocked-types list is computed
once, then the three rules run in order (streak, score, duration), each
guarded by its idempotence pre-check. -/
def checkAchievements (st : MemState) (userId : String) (session : Session)
    (streak : ℕ) (now : ℤ) : MemState :=
  let achievementTypes :=
    (getUserAchievements st userId).map (fun a => a.type)
  let st1 :=
    if 7 ≤ streak ∧ achievementTypes.contains "streak_7" = false then
      createAchievement st
        { userId, type := "streak_7", title := "7 Day Streak"
          description := "Practiced for 7 days in a row"
          icon := "fas fa-fire", unlockedAt := now }
    else st
  let st2 :=
    if 80 ≤ session.score ∧ achievementTypes.contains "score_80" = false then
      createAchievement st1
        { userId, type := "score_80", title := "First 80+"
          description := "Achieved a score of 80 or higher"
          icon := "fas fa-star", unlockedAt := now }
    else st1
  if 300000 ≤ session.durationMs ∧
      achievementTypes.contains "time_master" = false then
    createAchievement st2
      { userId, type := "time_master", title := "Time Master"
        description := "Completed a 5+ minute session"
        icon := "fas fa-clock", unlockedAt := now }
  else st2

/-- `MemStorage.updateUserProgressAfterSession`: silently returns (`.ok`
with the state unchanged) when the user has no progress record; otherwise
recomputes streak, rolling averages and best score over the five most
recent sessions, writes them, and runs the achievement rules. -/
def updateUserProgressAfterSession (st : MemState) (userId : String)
    (session : Session) (now : ℤ) : Except String MemState :=
  match getUserProgress st userId with
  | none => .ok st
  | some currentProgress =>
      let recentSessions := getUserSessions st userId 5
      let hasSessionToday :=
        recentSessions.any (fun s => dayOf s.createdAt == dayOf now)
      let hasSessionYesterday :=
        recentSessions.any (fun s =>
          dayOf s.createdAt == dayOf (now - 24 * 60 * 60 * 1000))
      let newStreak := computeNewStreak currentProgress.currentStreak
        currentProgress.lastSessionAt hasSessionToday hasSessionYesterday
      let avgFillerReduction : ℚ :=
        if 0 < recentSessions.length then
          (recentSessions.map (fun s =>
            ((s.metrics.map (fun m => m.fillerImprovement)).getD 0))).sum /
            (recentSessions.length : ℚ)
        else 0
      let avgPaceControl : ℚ :=
        if 0 < recentSessions.length then
          (recentSessions.map (fun s =>
            ((s.metrics.map (fun m => m.paceScore)).getD 0))).sum /
            (recentSessions.length : ℚ)
        else 0
      match updateUserProgress st userId
        { totalSessions := currentProgress.totalSessions + 1
          currentStreak := newStreak
          bestScore := max currentProgress.bestScore session.score
          avgFillerReduction := avgFillerReduction
          avgPaceControl := avgPaceControl
          lastSessionAt := some session.createdAt } now with
      | .error e => .error e
      | .ok st2 => .ok (checkAchievements st2 userId session newStreak now)

/-- Fields of an `InsertSession` consumed by `MemStorage.createSession`. -/
structure InsertSession where
  userId : String
  durationMs : ℤ
  metrics : Option SessionMetrics
  score : ℤ
  practiceMode : String
deriving DecidableEq

/-- `MemStorage.createSession`: build the session with `createdAt = now`,
store it, then update the user's progress (and achievements). -/
def createSession (st : MemState) (ins : InsertSession) (now : ℤ) :
    Except String (Session × MemState) :=
  let session : Session :=
    { userId := ins.userId
      durationMs := ins.durationMs
      metrics := ins.metrics
      score := ins.score
      practiceMode := ins.practiceMode
      createdAt := now }
  let st1 := { st with sessions := st.sessions ++ [session] }
  match updateUserProgressAfterSession st1 ins.userId session now with
  | .error e => .error e
  | .ok st2 => .ok (session, st2)

/-- Zeroed progress record created by `MemStorage.createUser`. -/
def initialProgress (userId : String) (now : ℤ) : UserProgress :=
  { userId
    totalSessions := 0
    currentStreak := 0
    bestScore := 0
    avgFillerReduction := 0
    avgPaceControl := 0
    weeklyGoal := 7
    weeklyCompleted := 0
    lastSessionAt := none
    updatedAt := now }

/-!
Shared evaluation lemmas and helper facts. -/

/-- Claim-ordered final step of the scoring pipeline: clamp to `[0,100]`
first and round afterwards; `jsRound_clamp_comm` shows it agrees with the
code's round-then-clamp. -/
def claimOverallScore (text : List Char) (durationSeconds : ℚ) : ℤ :=
  let wpm := calculateWPM text durationSeconds
  let fillerCount := countFillers text
  let wordCount := countWords text
  let clarityScore := calculateClarityScore text
  let score0 : ℚ := 100
  let fillerPenalty := min 30 ((fillerCount : ℚ) / (wordCount : ℚ) * 100 * 0.3)
  let score1 := score0 - fillerPenalty
  let paceScore := getPaceScore wpm
  let score2 := score1 * 0.8 + paceScore * 0.2
  let score3 := score2 * 0.8 + clarityScore * 100 * 0.2
  let score4 := if 120 ≤ durationSeconds then score3 + 5 else score3
  let score5 := if durationSeconds < 30 then score4 - 10 else score4
  jsRound (max 0 (min 100 score5))

/-- Scenario A transcript from the spec's end-to-end test. -/
def scenarioAText : List Char :=
  "I think um this is uh a good idea you know".toList

/-- Payload whose metrics object provides the present, valid value `0`
for `clarity_score` (the claim's "in particular" instance). -/
def zeroClarityPayload : AIPayload :=
  { metrics := some { clarity_score := some 0 } }

/-- Payload providing the truthy value `3` for `metrics.clarity_score`. -/
def truthyClarityPayload : AIPayload :=
  { metrics := some { clarity_score := some 3 } }

/-- Session created yesterday relative to the reference instant
`1760000000000` ms. -/
def yesterdaySession : Session :=
  { userId := "u1", durationMs := 60000, metrics := none, score := 70,
    practiceMode := "freestyle", createdAt := 1760000000000 - 86400000 }

/-- Prior progress with a 5-day streak and a recorded last session. -/
def gapProgress : UserProgress :=
  { userId := "u1", totalSessions := 3, currentStreak := 5, bestScore := 50,
    avgFillerReduction := 0, avgPaceControl := 0, weeklyGoal := 7,
    weeklyCompleted := 0, lastSessionAt := some (1760000000000 - 86400000),
    updatedAt := 0 }

/-- Storage state in which the only recent session is yesterday's. -/
def gapState : MemState :=
  { sessions := [yesterdaySession],
    progressMap := [("u1", gapProgress)],
    achievementsMap := [("u1", [])] }

/-- The empty storage state (no users initialised). -/
def emptyState : MemState :=
  { sessions := [], progressMap := [], achievementsMap := [] }

/-- A session for a user with no progress record. -/
def orphanSession : Session :=
  { userId := "u1", durationMs := 60000, metrics := none, score := 70,
    practiceMode := "freestyle", createdAt := 0 }

/-- Fresh first-time-user state for scenario B (progress zeroed at user
creation, no sessions, no achievements). -/
def scenarioBStart : MemState :=
  { sessions := [],
    progressMap := [("u1", initialProgress "u1" 0)],
    achievementsMap := [("u1", [])] }

/-- Scenario B session payload: 6 minutes, score 85. -/
def scenarioBInsert : InsertSession :=
  { userId := "u1", durationMs := 360000, metrics := none, score := 85,
    practiceMode := "freestyle" }

/-- End state of scenario B (falls back to the start state if session
creation failed, which the theorem's values rule out). -/
def scenarioBFinal : MemState :=
  match createSession scenarioBStart scenarioBInsert 1760000000000 with
  | .ok (_, st) => st
  | .error _ => scenarioBStart

theorem jsRound_clamp_comm (s : ℚ) :
    max 0 (min 100 (jsRound s)) = jsRound (max 0 (min 100 s)) := by
  have hhalf : ⌊(1/2 : ℚ)⌋ = 0 := by norm_num
  have h100 : ⌊(100 : ℚ) + 1/2⌋ = 100 := by norm_num
  rcases lt_or_le s 0 with hs | hs
  · rw [min_eq_right (by linarith : s ≤ 100), max_eq_left hs.le]
    have hz : jsRound s ≤ 0 := by
      have h := Int.floor_mono (by linarith : s + 1/2 ≤ (1/2 : ℚ))
      rw [hhalf] at h
      exact h
    have h0 : jsRound (0 : ℚ) = 0 := by
      simp only [jsRound, zero_add]
      exact hhalf
    rw [h0]
    omega
  · rcases le_or_lt s 100 with hs2 | hs2
    · rw [min_eq_right hs2, max_eq_right hs]
      have h1 : 0 ≤ jsRound s := by
        have h := Int.floor_mono (by linarith : (1/2 : ℚ) ≤ s + 1/2)
        rw [hhalf] at h
        exact h
      have h2 : jsRound s ≤ 100 := by
        have h := Int.floor_mono (by linarith : s + 1/2 ≤ (100 : ℚ) + 1/2)
        rw [h100] at h
        exact h
      omega
    · rw [min_eq_left hs2.le, max_eq_right (by norm_num : (0:ℚ) ≤ 100)]
      have h1 : 100 ≤ jsRound s := by
        have h := Int.floor_mono (by linarith : (100 : ℚ) + 1/2 ≤ s + 1/2)
        rw [h100] at h
        exact h
      have h2 : jsRound (100 : ℚ) = 100 := h100
      rw [h2]
      omega

/-- C1: for every transcript that is non-empty after trimming and every
positive duration, `calculateOverallScore` returns an integer in
`[0, 100]`, and the sequential pipeline it computes (filler penalty, pace
blend, clarity blend, duration adjustment) agrees with the claim's
formulation in which the final clamp is applied before rounding. -/
theorem calculateOverallScore_range (text : List Char) (durationSeconds : ℚ)
    (_htext : trimChars text ≠ []) (_hdur : 0 < durationSeconds) :
    (0 ≤ calculateOverallScore text durationSeconds ∧
      calculateOverallScore text durationSeconds ≤ 100) ∧
    calculateOverallScore text durationSeconds =
      claimOverallScore text durationSeconds := by
  refine ⟨⟨?_, ?_⟩, ?_⟩
  · simp only [calculateOverallScore]
    exact le_max_left _ _
  · simp only [calculateOverallScore]
    exact max_le (by norm_num) (min_le_left _ _)
  · simp only [calculateOverallScore, claimOverallScore]
    exact jsRound_clamp_comm _

theorem calculateOverallScore_range_witness :
    0 ≤ calculateOverallScore "hello world".toList 60 ∧
    calculateOverallScore "hello world".toList 60 ≤ 100 :=
  (calculateOverallScore_range "hello world".toList 60 (by decide)
    (by decide)).1

/-- C7: `calculateClarityScore` always lies in `[0.3, 1.0]`; it is exactly
`1` when the word count is positive and the filler count zero; and when
the word count is zero the filler ratio is taken to be `0`, so the result
is again exactly `1`. -/
theorem calculateClarityScore_bounds (text : List Char) :
    (0.3 ≤ calculateClarityScore text ∧ calculateClarityScore text ≤ 1.0) ∧
    (0 < countWords text → countFillers text = 0 →
      calculateClarityScore text = 1) ∧
    (countWords text = 0 → calculateClarityScore text = 1) := by
  refine ⟨⟨?_, ?_⟩, ?_, ?_⟩
  · simp only [calculateClarityScore]
    exact le_max_left _ _
  · simp only [calculateClarityScore]
    exact max_le (by norm_num) (min_le_left _ _)
  · intro hw hf
    simp only [calculateClarityScore, hf, if_pos hw, Nat.cast_zero, zero_div,
      zero_mul, sub_zero]
    norm_num [min_def, max_def]
  · intro h0
    simp only [calculateClarityScore, h0, lt_irrefl, if_false, zero_mul,
      sub_zero]
    norm_num [min_def, max_def]

theorem calculateClarityScore_bounds_witness :
    (0.3 ≤ calculateClarityScore "um so like".toList ∧
      calculateClarityScore "um so like".toList ≤ 1.0) ∧
    calculateClarityScore "hello world".toList = 1 :=
  ⟨(calculateClarityScore_bounds "um so like".toList).1,
   (calculateClarityScore_bounds "hello world".toList).2.1 (by decide)
     (by decide)⟩

/-- C6 counterexample: at the non-positive duration `-10` neither
`calculateWPM` (server) nor `clientCalculateWPM` (client) fails closed to
`0`: both return `round(wordCount / duration * 60) = -60`. -/
theorem calculateWPM_negative_duration_counterexample :
    (-10 : ℚ) ≤ 0 ∧
    calculateWPM "a a a a a a a a a a".toList (-10) = -60 ∧
    clientCalculateWPM 10 (-10) = -60 := by
  refine ⟨by norm_num, ?_, ?_⟩
  · have h : countWords "a a a a a a a a a a".toList = 10 := by decide
    rw [calculateWPM, h]
    norm_num [jsRound]
  · rw [clientCalculateWPM, if_neg (by norm_num)]
    norm_num [jsRound]

/-- C6 amended: only the client `calculateWPM` has a guard, and it fires
exactly at `durationSeconds === 0` (returning `0`); negative durations are
not guarded in either version and produce `round(wordCount/duration*60)`,
and the server version has no guard at all. -/
theorem clientCalculateWPM_zero_duration (wordCount : ℚ) :
    clientCalculateWPM wordCount 0 = 0 := by
  rw [clientCalculateWPM, if_pos rfl]

/-- C5 counterexample: the claimed scenario-A values are wrong, starting
with the word count (the sentence has 11 whitespace-separated words, not
10). -/
theorem scenarioA_claimed_values_false :
    ¬ (countWords scenarioAText = 10 ∧ 3 ≤ countFillers scenarioAText ∧
       calculateWPM scenarioAText 10 = 60 ∧
       calculateClarityScore scenarioAText = 2/5) :=
  fun h => absurd h.1 (by decide)

/-- C5 amended: on scenario A the code computes `countWords = 11` (the
sentence has 11 tokens), `countFillers = 2` (only `um` and `uh` match; the
two-word filler `you know` is compared space-stripped as `youknow` against
single tokens and can never match), `wpm = round(11/10*60) = 66`,
`paceScore 66 = 40` (66 is below the 70 band), clarity
`= 1 - 2*(2/11) = 7/11`, and an overall score of `70`. -/
theorem scenarioA_actual_values :
    countWords scenarioAText = 11 ∧
    countFillers scenarioAText = 2 ∧
    calculateWPM scenarioAText 10 = 66 ∧
    getPaceScore (calculateWPM scenarioAText 10) = 40 ∧
    calculateClarityScore scenarioAText = 7/11 ∧
    calculateOverallScore scenarioAText 10 = 70 := by
  have hw : countWords scenarioAText = 11 := by decide
  have hf : countFillers scenarioAText = 2 := by decide
  have hwpm : calculateWPM scenarioAText 10 = 66 := by
    rw [calculateWPM, hw]
    norm_num [jsRound]
  have hclar : calculateClarityScore scenarioAText = 7/11 := by
    simp only [calculateClarityScore, hw, hf]
    norm_num [min_def, max_def]
  refine ⟨hw, hf, hwpm, ?_, hclar, ?_⟩
  · rw [hwpm]
    decide
  · simp only [calculateOverallScore, hw, hf, hwpm, hclar]
    rw [if_pos (by norm_num : (10:ℚ) < 30), if_neg (by norm_num : ¬ (120:ℚ) ≤ 10)]
    have hpace : getPaceScore 66 = 40 := by decide
    rw [hpace]
    norm_num [jsRound, min_def, max_def]

/-- C2 counterexample: the payload provides `metrics.clarity_score = 0`,
a present and valid value, yet the merge discards it: `0` is falsy for
JavaScript `||`, so the deterministic fallback (here `1`) is substituted
and the AI-provided value is not preserved. -/
theorem zeroClarityPayload_not_preserved :
    zeroClarityPayload.metrics = some { clarity_score := some 0 } ∧
    (analyzeAudioSuccess zeroClarityPayload "hello".toList 10).metrics.clarity_score = 1 ∧
    (analyzeAudioSuccess zeroClarityPayload "hello".toList 10).metrics.clarity_score ≠ 0 := by
  have hw : countWords "hello".toList = 1 := by decide
  have hf : countFillers "hello".toList = 0 := by decide
  have h1 : (analyzeAudioSuccess zeroClarityPayload "hello".toList 10).metrics.clarity_score = 1 := by
    simp only [zeroClarityPayload, analyzeAudioSuccess, Option.getD_some,
      jsOrNum, if_true]
    simp only [calculateClarityScore, hw, hf, Nat.cast_zero, zero_div,
      Nat.cast_one]
    norm_num [min_def, max_def]
  refine ⟨rfl, h1, ?_⟩
  rw [h1]
  norm_num

/-- C2 amended: the merge in the success path of `analyzeAudio` preserves
an AI-provided field only when it is truthy for JavaScript `||`: a
numeric field is preserved exactly when present and nonzero (a provided
`0` is replaced by the deterministic fallback, as the counterexample
shows), and an object/array field is preserved whenever present. -/
theorem analyzeAudioSuccess_truthy_preservation
    (p : AIPayload) (m : AIMetricsPayload) (t : List Char) (d : ℚ)
    (hm : p.metrics = some m) :
    (∀ v, m.total_words = some v → v ≠ 0 →
      (analyzeAudioSuccess p t d).metrics.total_words = v) ∧
    (∀ v, m.words_per_minute = some v → v ≠ 0 →
      (analyzeAudioSuccess p t d).metrics.words_per_minute = v) ∧
    (∀ v, m.total_fillers = some v → v ≠ 0 →
      (analyzeAudioSuccess p t d).metrics.total_fillers = v) ∧
    (∀ v, m.fillers_per_minute = some v → v ≠ 0 →
      (analyzeAudioSuccess p t d).metrics.fillers_per_minute = v) ∧
    (∀ v, m.avg_pause_ms = some v → v ≠ 0 →
      (analyzeAudioSuccess p t d).metrics.avg_pause_ms = v) ∧
    (∀ v, m.energy_mean = some v → v ≠ 0 →
      (analyzeAudioSuccess p t d).metrics.energy_mean = v) ∧
    (∀ v, m.pitch_median_hz = some v → v ≠ 0 →
      (analyzeAudioSuccess p t d).metrics.pitch_median_hz = v) ∧
    (∀ v, m.clarity_score = some v → v ≠ 0 →
      (analyzeAudioSuccess p t d).metrics.clarity_score = v) ∧
    (∀ v, m.confidence = some v → v ≠ 0 →
      (analyzeAudioSuccess p t d).metrics.confidence = v) ∧
    (∀ v, m.paceScore = some v → v ≠ 0 →
      (analyzeAudioSuccess p t d).metrics.paceScore = v) ∧
    (∀ v, m.fillerImprovement = some v → v ≠ 0 →
      (analyzeAudioSuccess p t d).metrics.fillerImprovement = v) ∧
    (∀ v, p.score = some v → v ≠ 0 →
      (analyzeAudioSuccess p t d).score = v) ∧
    (∀ ts, p.transcript = some ts →
      (analyzeAudioSuccess p t d).transcript = ts) ∧
    (∀ fb, p.fillerBreakdown = some fb →
      (analyzeAudioSuccess p t d).fillerBreakdown = fb) ∧
    (∀ hs, p.highlights = some hs →
      (analyzeAudioSuccess p t d).highlights = hs) ∧
    (∀ rs, p.recommendations = some rs →
      (analyzeAudioSuccess p t d).recommendations = rs) := by
  refine ⟨?_, ?_, ?_, ?_, ?_, ?_, ?_, ?_, ?_, ?_, ?_, ?_, ?_, ?_, ?_, ?_⟩ <;>
    intro v hv <;>
    first
      | (intro hnz
         simp [analyzeAudioSuccess, hm, hv, jsOrNum, hnz])
      | simp [analyzeAudioSuccess, hm, hv, jsOrObj]

theorem analyzeAudioSuccess_truthy_preservation_witness :
    (analyzeAudioSuccess truthyClarityPayload "hello".toList 10).metrics.clarity_score = 3 :=
  (analyzeAudioSuccess_truthy_preservation truthyClarityPayload
    { clarity_score := some 3 } "hello".toList 10
    rfl).2.2.2.2.2.2.2.1 3 rfl (by decide)

/-- C3 amended: in the streak decision list, when `hasSessionToday` is
false the streak resets to `1` only when there was also no session
yesterday; when a session exists yesterday (but none today) the prior
streak is kept unchanged. -/
theorem computeNewStreak_no_session_today (currentStreak : ℕ)
    (lastSessionAt : Option ℤ) (hasSessionYesterday : Bool) :
    computeNewStreak currentStreak lastSessionAt false hasSessionYesterday =
      if hasSessionYesterday then currentStreak else 1 := by
  cases hasSessionYesterday <;> rfl

/-- C3 counterexample: with a recent-sessions list containing only a
session dated yesterday, `hasSessionToday` is false yet the progress
update leaves the streak at the prior value `5` instead of resetting it
to `1` (the third branch of the decision list is guarded by
`!hasSessionYesterday`, which fails here). -/
theorem streak_not_reset_counterexample :
    ((getUserSessions gapState "u1" 5).any
      (fun s => dayOf s.createdAt == dayOf 1760000000000)) = false ∧
    (match updateUserProgressAfterSession gapState "u1" yesterdaySession
        1760000000000 with
     | .ok st => (getUserProgress st "u1").map (fun p => p.currentStreak)
     | .error _ => none) = some 5 ∧
    (5 : ℕ) ≠ 1 := by
  refine ⟨by decide, by decide, by decide⟩

/-- C9 counterexample: for a user with no progress record the
session-triggered progress update completes as a silent no-op (`.ok` with
the state unchanged); no internal error is surfaced. -/
theorem missing_progress_silent_noop_counterexample :
    getUserProgress emptyState "u1" = none ∧
    updateUserProgressAfterSession emptyState "u1" orphanSession
      1760000000000 = Except.ok emptyState :=
  ⟨rfl, rfl⟩

/-- C9 amended: when the user has no progress record the session-triggered
update returns `.ok` with the state unchanged (the `if (!currentProgress)
return;` guard), i.e. it is silently ignored; only a direct call to
`updateUserProgress` surfaces the internal "User progress not found"
error. -/
theorem missing_progress_behaviour (st : MemState) (userId : String)
    (session : Session) (now : ℤ)
    (h : getUserProgress st userId = none) :
    updateUserProgressAfterSession st userId session now = Except.ok st ∧
    (∀ u n2, updateUserProgress st userId u n2 =
      Except.error ("User progress not found for user " ++ userId)) := by
  constructor
  · simp only [updateUserProgressAfterSession, h]
  · intro u n2
    have h' : lookupList st.progressMap userId = none := h
    simp only [updateUserProgress, h']

theorem missing_progress_behaviour_witness :
    updateUserProgressAfterSession emptyState "u2" orphanSession 5 =
      Except.ok emptyState :=
  (missing_progress_behaviour emptyState "u2" orphanSession 5 rfl).1

/-- C4: ingesting a 6-minute, score-85 session for a first-time user
yields streak 1, best score 85, one total session, and exactly the
`score_80` and `time_master` achievements (`streak_7` is not unlocked). -/
theorem scenarioB_first_time_user :
    (getUserProgress scenarioBFinal "u1").map
      (fun p => (p.currentStreak, p.bestScore, p.totalSessions)) =
      some (1, 85, 1) ∧
    (getUserAchievements scenarioBFinal "u1").map (fun a => a.type) =
      ["score_80", "time_master"] ∧
    "streak_7" ∉ (getUserAchievements scenarioBFinal "u1").map
      (fun a => a.type) := by
  refine ⟨by decide, by decide, by decide⟩

/-!
Achievement-engine idempotence (C8). -/

theorem lookupList_setEntry_self {α : Type} (m : List (String × α))
    (k : String) (v : α) : lookupList (setEntry m k v) k = some v := by
  induction m with
  | nil => simp [setEntry, lookupList, List.find?]
  | cons p rest ih =>
    obtain ⟨k', v'⟩ := p
    by_cases h : (k' == k) = true
    · simp only [setEntry, if_pos h, lookupList]
      rw [List.find?_cons_of_pos _ (by simp)]
      rfl
    · simp only [setEntry, if_neg h, lookupList]
      rw [List.find?_cons_of_neg _ (by simpa using h)]
      exact ih

theorem mem_insertDescBy {α : Type} (key : α → ℤ) (x y : α) (l : List α) :
    y ∈ insertDescBy key x l ↔ y = x ∨ y ∈ l := by
  induction l with
  | nil => simp [insertDescBy]
  | cons z rest ih =>
    by_cases h : key z < key x <;>
      simp [insertDescBy, h, ih, List.mem_cons] <;> tauto

theorem mem_sortDescBy {α : Type} (key : α → ℤ) (l : List α) (y : α) :
    y ∈ sortDescBy key l ↔ y ∈ l := by
  have haux : ∀ (l acc : List α),
      (y ∈ l.foldl (fun acc x => insertDescBy key x acc) acc ↔
        y ∈ acc ∨ y ∈ l) := by
    intro l
    induction l with
    | nil => intro acc; simp
    | cons x rest ih =>
      intro acc
      rw [List.foldl_cons, ih, mem_insertDescBy]
      simp [List.mem_cons]
      tauto
  simpa [sortDescBy] using haux l []

theorem mem_types_createAchievement {st : MemState} {a : Achievement}
    {uid : String} {τ : String} (huid : a.userId = uid) :
    (τ ∈ (getUserAchievements (createAchievement st a) uid).map
        (fun x => x.type)) ↔
      τ = a.type ∨
        τ ∈ (getUserAchievements st uid).map (fun x => x.type) := by
  subst huid
  simp only [createAchievement, getUserAchievements]
  rw [lookupList_setEntry_self]
  simp only [Option.getD_some, List.mem_map, mem_sortDescBy,
    List.mem_append, List.mem_singleton]
  constructor
  · rintro ⟨x, hx | rfl, rfl⟩
    · exact Or.inr ⟨x, hx, rfl⟩
    · exact Or.inl rfl
  · rintro (rfl | ⟨x, hx, rfl⟩)
    · exact ⟨a, Or.inr rfl, rfl⟩
    · exact ⟨x, Or.inl hx, rfl⟩

theorem streak7_mem_after_checkAchievements (st : MemState) (uid : String)
    (sess : Session) (streak : ℕ) (now : ℤ) (h7 : 7 ≤ streak) :
    "streak_7" ∈
      (getUserAchievements (checkAchievements st uid sess streak now)
        uid).map (fun a => a.type) := by
  simp only [checkAchievements]
  by_cases hc : ((getUserAchievements st uid).map
      (fun a => a.type)).contains "streak_7" = false
  · rw [if_pos (show 7 ≤ streak ∧ ((getUserAchievements st uid).map
        (fun a => a.type)).contains "streak_7" = false from ⟨h7, hc⟩)]
    split_ifs <;> (try simp only [mem_types_createAchievement]) <;> simp
  · have ht : ((getUserAchievements st uid).map
        (fun a => a.type)).contains "streak_7" = true := by
      cases hb : ((getUserAchievements st uid).map
          (fun a => a.type)).contains "streak_7"
      · exact absurd hb hc
      · rfl
    have hmem : "streak_7" ∈
        (getUserAchievements st uid).map (fun a => a.type) := by
      simpa using ht
    split_ifs <;> (try simp only [mem_types_createAchievement]) <;>
      simp [hmem]

theorem score80_mem_after_checkAchievements (st : MemState) (uid : String)
    (sess : Session) (streak : ℕ) (now : ℤ) (h80 : 80 ≤ sess.score) :
    "score_80" ∈
      (getUserAchievements (checkAchievements st uid sess streak now)
        uid).map (fun a => a.type) := by
  simp only [checkAchievements]
  by_cases hc : ((getUserAchievements st uid).map
      (fun a => a.type)).contains "score_80" = false
  · rw [if_pos (show 80 ≤ sess.score ∧ ((getUserAchievements st uid).map
        (fun a => a.type)).contains "score_80" = false from ⟨h80, hc⟩)]
    split_ifs <;> (try simp only [mem_types_createAchievement]) <;> simp
  · have ht : ((getUserAchievements st uid).map
        (fun a => a.type)).contains "score_80" = true := by
      cases hb : ((getUserAchievements st uid).map
          (fun a => a.type)).contains "score_80"
      · exact absurd hb hc
      · rfl
    have hmem : "score_80" ∈
        (getUserAchievements st uid).map (fun a => a.type) := by
      simpa using ht
    split_ifs <;> (try simp only [mem_types_createAchievement]) <;>
      simp [hmem]

theorem timeMaster_mem_after_checkAchievements (st : MemState)
    (uid : String) (sess : Session) (streak : ℕ) (now : ℤ)
    (hdur : 300000 ≤ sess.durationMs) :
    "time_master" ∈
      (getUserAchievements (checkAchievements st uid sess streak now)
        uid).map (fun a => a.type) := by
  simp only [checkAchievements]
  by_cases hc : ((getUserAchievements st uid).map
      (fun a => a.type)).contains "time_master" = false
  · rw [if_pos (show 300000 ≤ sess.durationMs ∧
        ((getUserAchievements st uid).map
          (fun a => a.type)).contains "time_master" = false from ⟨hdur, hc⟩)]
    split_ifs <;> (try simp only [mem_types_createAchievement]) <;> simp
  · have ht : ((getUserAchievements st uid).map
        (fun a => a.type)).contains "time_master" = true := by
      cases hb : ((getUserAchievements st uid).map
          (fun a => a.type)).contains "time_master"
      · exact absurd hb hc
      · rfl
    have hmem : "time_master" ∈
        (getUserAchievements st uid).map (fun a => a.type) := by
      simpa using ht
    split_ifs <;> (try simp only [mem_types_createAchievement]) <;>
      simp [hmem]

theorem checkAchievements_noop (st : MemState) (uid : String)
    (sess : Session) (streak : ℕ) (now : ℤ)
    (h1 : 7 ≤ streak →
      "streak_7" ∈ (getUserAchievements st uid).map (fun a => a.type))
    (h2 : 80 ≤ sess.score →
      "score_80" ∈ (getUserAchievements st uid).map (fun a => a.type))
    (h3 : 300000 ≤ sess.durationMs →
      "time_master" ∈ (getUserAchievements st uid).map (fun a => a.type)) :
    checkAchievements st uid sess streak now = st := by
  simp only [checkAchievements]
  have hc1 : ¬ (7 ≤ streak ∧ ((getUserAchievements st uid).map
      (fun a => a.type)).contains "streak_7" = false) := by
    rintro ⟨h7, hcf⟩
    have ht : ((getUserAchievements st uid).map
        (fun a => a.type)).contains "streak_7" = true := by
      simpa using h1 h7
    rw [ht] at hcf
    cases hcf
  have hc2 : ¬ (80 ≤ sess.score ∧ ((getUserAchievements st uid).map
      (fun a => a.type)).contains "score_80" = false) := by
    rintro ⟨h80, hcf⟩
    have ht : ((getUserAchievements st uid).map
        (fun a => a.type)).contains "score_80" = true := by
      simpa using h2 h80
    rw [ht] at hcf
    cases hcf
  have hc3 : ¬ (300000 ≤ sess.durationMs ∧ ((getUserAchievements st uid).map
      (fun a => a.type)).contains "time_master" = false) := by
    rintro ⟨hd, hcf⟩
    have ht : ((getUserAchievements st uid).map
        (fun a => a.type)).contains "time_master" = true := by
      simpa using h3 hd
    rw [ht] at hcf
    cases hcf
  rw [if_neg hc1, if_neg hc2, if_neg hc3]

/-- C8: the Achievement Engine is idempotent: running `checkAchievements`
a second time with the same session and streak, against the state it has
already updated, creates nothing (in particular no duplicate
`(userId, type)` pair), because every rule whose condition holds has its
type in the unlocked set after the first run and every rule is guarded by
the membership pre-check. -/
theorem checkAchievements_idempotent (st : MemState) (uid : String)
    (sess : Session) (streak : ℕ) (n1 n2 : ℤ) :
    checkAchievements (checkAchievements st uid sess streak n1) uid sess
      streak n2 = checkAchievements st uid sess streak n1 :=
  checkAchievements_noop _ _ _ _ _
    (streak7_mem_after_checkAchievements st uid sess streak n1)
    (score80_mem_after_checkAchievements st uid sess streak n1)
    (timeMaster_mem_after_checkAchievements st uid sess streak n1)

/-!
Filler count never exceeds word count (C10).  The proof relates the two
token lists: a token that matches a filler is non-empty, the number of
non-empty tokens is unchanged by lower-casing (which preserves
whitespace), and unchanged by trimming (which only removes whitespace at
the ends, affecting only empty edge tokens). -/

theorem filler_match_nonempty (w : List Char)
    (h : fillerWords.any (fun filler =>
      containsSub (replaceFirstSpace filler) w) = true) :
    decide (0 < w.length) = true := by
  cases w with
  | nil => exact absurd h (by decide)
  | cons c cs => simp

theorem length_filter_le_of_imp (l : List (List Char))
    (p q : List Char → Bool) (hpq : ∀ w, p w = true → q w = true) :
    (l.filter p).length ≤ (l.filter q).length := by
  induction l with
  | nil => simp
  | cons w rest ih =>
    simp only [List.filter_cons]
    by_cases hw : p w = true
    · rw [if_pos hw, if_pos (hpq w hw)]
      simpa using ih
    · rw [if_neg hw]
      by_cases hq : q w = true
      · rw [if_pos hq]
        exact Nat.le_trans ih (by simp)
      · rw [if_neg hq]
        exact ih

theorem splitAux_dropWhile_ws (m : List Char) :
    splitAux (m.dropWhile isWs) (some []) = splitAux m none := by
  induction m with
  | nil => rfl
  | cons c rest ih =>
    by_cases h : isWs c = true
    · rw [List.dropWhile_cons, if_pos h, ih]
      simp [splitAux, h]
    · rw [List.dropWhile_cons, if_neg h]
      simp [splitAux, h]

theorem count_splitAux_dropWhile (l : List Char) :
    ((splitAux (l.dropWhile isWs) (some [])).filter
      (fun w => decide (0 < w.length))).length =
    ((splitAux l (some [])).filter
      (fun w => decide (0 < w.length))).length := by
  cases l with
  | nil => rfl
  | cons c rest =>
    by_cases h : isWs c = true
    · rw [List.dropWhile_cons, if_pos h, splitAux_dropWhile_ws]
      simp [splitAux, h, List.filter_cons]
    · rw [List.dropWhile_cons, if_neg h]

theorem splitAux_all_ws_none (w : List Char)
    (hw : ∀ c ∈ w, isWs c = true) : splitAux w none = [[]] := by
  induction w with
  | nil => rfl
  | cons c rest ih =>
    have hc := hw c (by simp)
    simp only [splitAux, hc, if_true]
    exact ih (fun x hx => hw x (by simp [hx]))

theorem count_splitAux_all_ws_some (w : List Char) (acc : List Char)
    (hw : ∀ c ∈ w, isWs c = true) :
    ((splitAux w (some acc)).filter
      (fun x => decide (0 < x.length))).length =
    (([acc.reverse] : List (List Char)).filter
      (fun x => decide (0 < x.length))).length := by
  cases w with
  | nil => rfl
  | cons c rest =>
    have hc := hw c (by simp)
    simp only [splitAux, hc, if_true]
    rw [splitAux_all_ws_none rest (fun x hx => hw x (by simp [hx]))]
    simp only [List.filter_cons, List.filter_nil]
    split_ifs <;> simp_all

theorem count_splitAux_append_ws (w : List Char)
    (hw : ∀ c ∈ w, isWs c = true) :
    ∀ (l : List Char) (acc : Option (List Char)),
    ((splitAux (l ++ w) acc).filter
      (fun x => decide (0 < x.length))).length =
    ((splitAux l acc).filter (fun x => decide (0 < x.length))).length := by
  intro l
  induction l with
  | nil =>
    intro acc
    cases acc with
    | none =>
      rw [List.nil_append, splitAux_all_ws_none w hw]
      rfl
    | some a =>
      rw [List.nil_append, count_splitAux_all_ws_some w a hw]
      rfl
  | cons c rest ih =>
    intro acc
    rw [List.cons_append]
    cases acc with
    | none =>
      by_cases h : isWs c = true
      · simp only [splitAux, h, if_true]
        exact ih none
      · simp only [splitAux]
        rw [if_neg h, if_neg h]
        exact ih (some [c])
    | some a =>
      by_cases h : isWs c = true
      · simp only [splitAux, h, if_true]
        simp only [List.filter_cons]
        split_ifs
        · simp only [List.length_cons]
          rw [ih none]
        · exact ih none
      · simp only [splitAux]
        rw [if_neg h, if_neg h]
        exact ih (some (c :: a))

theorem count_splitAux_trim (l : List Char) :
    ((splitAux (trimChars l) (some [])).filter
      (fun x => decide (0 < x.length))).length =
    ((splitAux l (some [])).filter (fun x => decide (0 < x.length))).length := by
  unfold trimChars
  have hsplit : l.dropWhile isWs =
      ((l.dropWhile isWs).reverse.dropWhile isWs).reverse ++
        ((l.dropWhile isWs).reverse.takeWhile isWs).reverse := by
    rw [← List.reverse_append, List.takeWhile_append_dropWhile,
      List.reverse_reverse]
  have hws : ∀ c ∈ ((l.dropWhile isWs).reverse.takeWhile isWs).reverse,
      isWs c = true := by
    intro c hc
    rw [List.mem_reverse] at hc
    exact List.mem_takeWhile_imp hc
  have h1 := count_splitAux_append_ws _ hws
    (((l.dropWhile isWs).reverse.dropWhile isWs).reverse) (some [])
  rw [← hsplit] at h1
  rw [← h1]
  exact count_splitAux_dropWhile l

theorem splitAux_map (f : Char → Char) (hf : ∀ c, isWs (f c) = isWs c) :
    ∀ (l : List Char) (acc : Option (List Char)),
    splitAux (l.map f) (acc.map (List.map f)) =
      (splitAux l acc).map (List.map f) := by
  intro l
  induction l with
  | nil =>
    intro acc
    cases acc with
    | none => rfl
    | some a => simp [splitAux, List.map_reverse]
  | cons c rest ih =>
    intro acc
    cases acc with
    | none =>
      by_cases h : isWs c = true
      · simp only [List.map_cons, splitAux, hf c, h, if_true]
        exact ih none
      · simp only [List.map_cons, splitAux, hf c]
        rw [if_neg h, if_neg h]
        have h2 := ih (some [c])
        simpa using h2
    | some a =>
      by_cases h : isWs c = true
      · simp only [List.map_cons, Option.map_some, splitAux, hf c, h,
          if_true]
        have h2 : splitAux (List.map f rest) none =
            List.map (List.map f) (splitAux rest none) := ih none
        rw [h2]
        simp [List.map_reverse]
      · simp only [List.map_cons, Option.map_some, splitAux, hf c]
        rw [if_neg h, if_neg h]
        have h2 : splitAux (List.map f rest) (some (List.map f (c :: a))) =
            List.map (List.map f) (splitAux rest (some (c :: a))) :=
          ih (some (c :: a))
        simpa using h2

theorem count_filter_map_map (f : Char → Char) (toks : List (List Char)) :
    ((toks.map (List.map f)).filter
      (fun x => decide (0 < x.length))).length =
    (toks.filter (fun x => decide (0 < x.length))).length := by
  induction toks with
  | nil => rfl
  | cons w rest ih =>
    simp only [List.map_cons, List.filter_cons, List.length_map]
    split_ifs <;> simp [ih]

theorem char_toNat_ofNat_lt {n : ℕ} (h : n < 55296) :
    (Char.ofNat n).toNat = n := by
  unfold Char.ofNat
  rw [dif_pos (Or.inl h)]
  rfl

theorem char_beq_eq_false {a b : Char} (h : a.toNat ≠ b.toNat) :
    (a == b) = false := by
  rw [beq_eq_false_iff_ne]
  intro e
  exact h (by rw [e])

theorem isWs_eq_false_of_toNat (c : Char) (h14 : 14 ≤ c.toNat)
    (h32 : c.toNat ≠ 32) : isWs c = false := by
  have hsp : (' ' : Char).toNat = 32 := rfl
  have htab : ('\t' : Char).toNat = 9 := rfl
  have hnl : ('\n' : Char).toNat = 10 := rfl
  have hcr : ('\r' : Char).toNat = 13 := rfl
  simp only [isWs, Bool.or_eq_false_iff]
  refine ⟨⟨⟨?_, ?_⟩, ?_⟩, ?_⟩ <;> apply char_beq_eq_false
  · rw [hsp]; omega
  · rw [htab]; omega
  · rw [hnl]; omega
  · rw [hcr]; omega

theorem isWs_toLowerChar (c : Char) : isWs (toLowerChar c) = isWs c := by
  unfold toLowerChar
  by_cases h : 65 ≤ c.toNat ∧ c.toNat ≤ 90
  · rw [if_pos h]
    have hx : (Char.ofNat (c.toNat + 32)).toNat = c.toNat + 32 :=
      char_toNat_ofNat_lt (by omega)
    rw [isWs_eq_false_of_toNat _ (by rw [hx]; omega) (by rw [hx]; omega),
      isWs_eq_false_of_toNat c (by omega) (by omega)]
  · rw [if_neg h]

/-- C10: for every input text, `countFillers` never exceeds `countWords`:
every token counted as a filler is non-empty, lower-casing preserves the
token structure, and trimming only removes empty edge tokens. -/
theorem countFillers_le_countWords (text : List Char) :
    countFillers text ≤ countWords text := by
  unfold countFillers countWords splitWS
  have step1 : ((splitAux (lowerChars text) (some [])).filter
      (fun word => fillerWords.any (fun filler =>
        containsSub (replaceFirstSpace filler) word))).length ≤
      ((splitAux (lowerChars text) (some [])).filter
        (fun w => decide (0 < w.length))).length :=
    length_filter_le_of_imp _ _ _ filler_match_nonempty
  have hmap : splitAux (List.map toLowerChar text) (some []) =
      List.map (List.map toLowerChar) (splitAux text (some [])) :=
    splitAux_map toLowerChar isWs_toLowerChar text (some [])
  have step2 : ((splitAux (lowerChars text) (some [])).filter
      (fun w => decide (0 < w.length))).length =
      ((splitAux text (some [])).filter
        (fun w => decide (0 < w.length))).length := by
    unfold lowerChars
    rw [hmap]
    exact count_filter_map_map toLowerChar _
  have step3 := count_splitAux_trim text
  omega
